import Mathlib

/-!
Verification of the CORA coastal-flood-risk core against its specification.

The development shallowly embeds the core of the repository:
* `src/cora/core/flood_model.py` — `bathtub_inundation`, `binary_flood_fill`,
  `connected_flood`;
* `src/cora/core/geospatial_utils.py` — `is_coastal_edge`;
* `src/cora/core/adaptation.py` — `rasterize_line`, `apply_sea_wall`;
* `src/cora/analysis/impact_assessment.py` — the per-point containment test
  inlined in `count_flooded_buildings`, and `find_intersecting_features`.

2D numpy arrays are embedded as rectangular `List (List _)` values, Python
floats as a rational extended with the IEEE-754 non-finite values, and code
that can raise as `Except`-valued functions.  Calls into external libraries
(scipy, rasterio, geopandas) are modelled from the specification's description
of them; each such definition carries a doc comment saying so.
-/

namespace Cora

/-- Python error kinds raised by the embedded code paths. -/
inductive PyErr where
  | typeError
  | valueError
  | indexError
  | attributeError
deriving DecidableEq, Repr

/-- A Python float as consumed by the flood engine: a finite rational or one of
the IEEE-754 non-finite values.  The source validates sea levels only with
`isinstance(sea_level, (int, float))`, which all four constructors satisfy. -/
inductive PyFloat where
  | finite (q : ℚ)
  | nan
  | inf
  | ninf
deriving DecidableEq

/-- IEEE-754 comparison `q <= s` between a finite elevation sample and a Python
float sea level, as numpy's elementwise `dem <= sea_level` computes it: any
comparison with NaN is false, every finite value is `<= +inf` and none is
`<= -inf`. -/
def PyFloat.leSL (q : ℚ) : PyFloat → Bool
  | .finite r => decide (q ≤ r)
  | .nan => false
  | .inf => true
  | .ninf => false

/-- Cell read of a boolean 2D array; out-of-range reads give `false` (scipy's
`binary_propagation` keeps its default `border_value=0`, so cells beyond the
border act as unflooded). -/
def bget (m : List (List Bool)) (i j : ℕ) : Bool :=
  ((m[i]?).getD [])[j]?.getD false

/-- Cell read of a rational 2D array, defaulting to 0 out of range. -/
def qget (m : List (List ℚ)) (i j : ℕ) : ℚ :=
  ((m[i]?).getD [])[j]?.getD 0

/-- Cell read of an integer 2D array, defaulting to 0 out of range. -/
def iget (m : List (List ℤ)) (i j : ℕ) : ℤ :=
  ((m[i]?).getD [])[j]?.getD 0

/-- First component of the numpy shape of a 2D array: the number of rows. -/
def shape0 (m : List (List α)) : ℕ := m.length

/-- Second component of the numpy shape of a 2D array: the number of columns
(read off the first row, as every row of a rectangular array has the same
length). -/
def shape1 (m : List (List α)) : ℕ := (m.headD []).length

/-- The numpy shape `(rows, cols)` of a 2D array. -/
def npShape (m : List (List α)) : ℕ × ℕ := (shape0 m, shape1 m)

/-- The list of row lengths; for a rectangular array this is
`replicate rows cols`. -/
def rowLens (m : List (List α)) : List ℕ := m.map List.length

/-- Rectangularity: every row has the nominal column count.  A genuine numpy
2D array always satisfies this. -/
def Wf (m : List (List α)) : Prop := ∀ row ∈ m, row.length = shape1 m

/-- Builds an `r × c` boolean array from a cell function. -/
def mkGrid (r c : ℕ) (f : ℕ → ℕ → Bool) : List (List Bool) :=
  (List.range r).map (fun i => (List.range c).map (f i))

/-- Elementwise `&` of two equal-shaped boolean arrays (numpy `a & b`). -/
def and2 (a b : List (List Bool)) : List (List Bool) :=
  mkGrid (shape0 a) (shape1 a) (fun i j => bget a i j && bget b i j)

/-- Embeds `bathtub_inundation` (src/cora/core/flood_model.py):
`np.where(dem <= sea_level, 1, 0)`.  The result cells are the integers 1 and 0
— `np.where` with integer branch values yields an integer array, not a boolean
one.  The source's `isinstance` checks on the two arguments are structural in
this embedding (the argument types enforce them). -/
def bathtub_inundation (dem : List (List ℚ)) (sea_level : PyFloat) : List (List ℤ) :=
  dem.map (fun row => row.map (fun q => if PyFloat.leSL q sea_level then 1 else 0))

/-- The elementwise mask `dem <= sea_level` computed inside `connected_flood`. -/
def potentialMask (dem : List (List ℚ)) (sea_level : PyFloat) : List (List Bool) :=
  dem.map (fun row => row.map (fun q => PyFloat.leSL q sea_level))

/-- The boundary mask built by `is_coastal_edge`
(src/cora/core/geospatial_utils.py): first and last row, first and last column
are marked true. -/
def edgeMask (r c : ℕ) : List (List Bool) :=
  mkGrid r c (fun i j =>
    decide (i = 0) || decide (i = r - 1) || decide (j = 0) || decide (j = c - 1))

/-- Embeds `is_coastal_edge` (src/cora/core/geospatial_utils.py).  The `ndim`
and `isinstance` validations are structural here; on a 2D array with zero rows
the slice assignment `edge_mask[0, :]` raises IndexError, and with zero
columns `edge_mask[:, 0]` does, so empty grids produce an IndexError rather
than a validation error. -/
def is_coastal_edge (dem : List (List ℚ)) : Except PyErr (List (List Bool)) :=
  if shape0 dem = 0 ∨ shape1 dem = 0 then .error .indexError
  else .ok (edgeMask (shape0 dem) (shape1 dem))

/-- One masked dilation step with scipy's default structuring element
(`generate_binary_structure(2, 1)`: a cell and its 4 neighbours): a cell is set
when it lies in the mask and it or a 4-neighbour was already set.  Truncated
subtraction at the border only duplicates the centre term, which the
structuring element contains anyway. -/
def dilateStep (mask v : List (List Bool)) : List (List Bool) :=
  mkGrid (shape0 mask) (shape1 mask) (fun i j =>
    bget mask i j &&
      (bget v i j || bget v (i - 1) j || bget v (i + 1) j ||
        bget v i (j - 1) || bget v i (j + 1)))

/-- Modelled from the spec: `scipy.ndimage.binary_propagation` is an external
library call; §4.2 step 3 describes it as a flood fill growing from the seed
cells through neighbouring cells that lie in `mask`.  It is realised as masked
dilation iterated once per grid cell, which reaches the fixpoint because each
iteration before convergence marks at least one further cell. -/
def binary_propagation (v mask : List (List Bool)) : List (List Bool) :=
  (dilateStep mask)^[shape0 mask * shape1 mask] v

/-- Embeds `binary_flood_fill` (src/cora/core/flood_model.py): shape
validation, `valid_seed_points = seed_points & potential_flood_area`, then
`binary_propagation(input=valid_seed_points, mask=potential_flood_area)`. -/
def binary_flood_fill (seed_points potential : List (List Bool)) :
    Except PyErr (List (List Bool)) :=
  if npShape seed_points = npShape potential then
    .ok (binary_propagation (and2 seed_points potential) potential)
  else .error .valueError

/-- Embeds `connected_flood` (src/cora/core/flood_model.py): the potential
area `dem <= sea_level`, the coastal-edge seeds, and the flood fill.  The
`isinstance`/`ndim` validations are structural in the embedding; note the
source accepts every float — NaN and ±inf included — as a sea level. -/
def connected_flood (dem : List (List ℚ)) (sea_level : PyFloat) :
    Except PyErr (List (List Bool)) :=
  let potential := potentialMask dem sea_level
  match is_coastal_edge dem with
  | .error e => .error e
  | .ok coastal_edges => binary_flood_fill (and2 potential coastal_edges) potential

/-! Basic facts about the array helpers. -/

theorem bget_mkGrid (r c : ℕ) (f : ℕ → ℕ → Bool) (i j : ℕ) :
    bget (mkGrid r c f) i j = if i < r ∧ j < c then f i j else false := by
  unfold bget mkGrid
  rcases Nat.lt_or_ge i r with hi | hi
  · have hri : (List.range r)[i]? = some i := List.getElem?_range hi
    rcases Nat.lt_or_ge j c with hj | hj
    · have hrj : (List.range c)[j]? = some j := List.getElem?_range hj
      simp [List.getElem?_map, hri, hrj, hi, hj]
    · have hrj : (List.range c)[j]? = none := by
        have hlen : (List.range c).length ≤ j := by simpa using hj
        exact List.getElem?_eq_none hlen
      simp [List.getElem?_map, hri, hrj, Nat.not_lt.mpr hj]
  · have hri : (List.range r)[i]? = none := by
      have hlen : (List.range r).length ≤ i := by simpa using hi
      exact List.getElem?_eq_none hlen
    simp [List.getElem?_map, hri, Nat.not_lt.mpr hi]

theorem shape0_mkGrid (r c : ℕ) (f : ℕ → ℕ → Bool) : shape0 (mkGrid r c f) = r := by
  simp [shape0, mkGrid]

theorem shape1_mkGrid (r c : ℕ) (f : ℕ → ℕ → Bool) :
    shape1 (mkGrid r c f) = if r = 0 then 0 else c := by
  cases r with
  | zero => simp [shape1, mkGrid]
  | succ n => simp [shape1, mkGrid, List.range_succ_eq_map]

theorem npShape_and2 (a b : List (List Bool)) : npShape (and2 a b) = npShape a := by
  unfold npShape and2
  rw [shape0_mkGrid, shape1_mkGrid]
  cases a with
  | nil => simp [shape0, shape1]
  | cons row t => simp [shape0, shape1]

theorem shape0_potential (dem : List (List ℚ)) (s : PyFloat) :
    shape0 (potentialMask dem s) = shape0 dem := by
  simp [shape0, potentialMask]

theorem shape1_potential (dem : List (List ℚ)) (s : PyFloat) :
    shape1 (potentialMask dem s) = shape1 dem := by
  cases dem with
  | nil => rfl
  | cons row t => simp [shape1, potentialMask]

/-- Reduction of `connected_flood` to one closed conditional expression. -/
theorem connected_flood_eq (dem : List (List ℚ)) (s : PyFloat) :
    connected_flood dem s =
      if shape0 dem = 0 ∨ shape1 dem = 0 then .error .indexError
      else
        .ok (binary_propagation
          (and2 (and2 (potentialMask dem s) (edgeMask (shape0 dem) (shape1 dem)))
            (potentialMask dem s))
          (potentialMask dem s)) := by
  unfold connected_flood is_coastal_edge
  by_cases h : shape0 dem = 0 ∨ shape1 dem = 0
  · simp [h]
  · simp [h, binary_flood_fill, npShape_and2]

/-! Pointwise descriptions of the elementwise masks. -/

theorem bget_potential (dem : List (List ℚ)) (s : PyFloat) (i j : ℕ) :
    bget (potentialMask dem s) i j =
      (((dem[i]?).getD [])[j]?.map (fun q => PyFloat.leSL q s)).getD false := by
  unfold bget potentialMask
  rw [List.getElem?_map]
  cases hrow : dem[i]? with
  | none => simp
  | some row => simp [List.getElem?_map]

theorem iget_bathtub (dem : List (List ℚ)) (s : PyFloat) (i j : ℕ) :
    iget (bathtub_inundation dem s) i j =
      (((dem[i]?).getD [])[j]?.map
        (fun q => if PyFloat.leSL q s then (1 : ℤ) else 0)).getD 0 := by
  unfold iget bathtub_inundation
  rw [List.getElem?_map]
  cases hrow : dem[i]? with
  | none => simp
  | some row => simp [List.getElem?_map]

theorem pot_true_bathtub (dem : List (List ℚ)) (s : PyFloat) (i j : ℕ)
    (h : bget (potentialMask dem s) i j = true) :
    iget (bathtub_inundation dem s) i j = 1 := by
  rw [bget_potential] at h
  rw [iget_bathtub]
  cases hq : ((dem[i]?).getD [])[j]? with
  | none => simp [hq] at h
  | some q => simp [hq] at h ⊢; simp [h]

/-! The propagation result stays inside the mask. -/

theorem and2_true {a b : List (List Bool)} {i j : ℕ}
    (h : bget (and2 a b) i j = true) : bget a i j = true ∧ bget b i j = true := by
  unfold and2 at h
  rw [bget_mkGrid] at h
  by_cases hc : i < shape0 a ∧ j < shape1 a
  · rw [if_pos hc] at h; simpa using h
  · rw [if_neg hc] at h; simp at h

theorem dilate_true {mask v : List (List Bool)} {i j : ℕ}
    (h : bget (dilateStep mask v) i j = true) : bget mask i j = true := by
  unfold dilateStep at h
  rw [bget_mkGrid] at h
  by_cases hc : i < shape0 mask ∧ j < shape1 mask
  · rw [if_pos hc] at h; simp at h; exact h.1
  · rw [if_neg hc] at h; simp at h

theorem propagation_subset_mask {mask v : List (List Bool)}
    (hv : ∀ i j, bget v i j = true → bget mask i j = true) (i j : ℕ)
    (h : bget (binary_propagation v mask) i j = true) : bget mask i j = true := by
  unfold binary_propagation at h
  generalize hn : shape0 mask * shape1 mask = n at h
  cases n with
  | zero => exact hv i j (by simpa using h)
  | succ k =>
      rw [Function.iterate_succ_apply'] at h
      exact dilate_true h

/-- Helper: a cell flooded by a successful `connected_flood` lies in the
potential area `dem <= sea_level`. -/
theorem connected_ok_pot {dem : List (List ℚ)} {s : PyFloat} {m : List (List Bool)}
    (hok : connected_flood dem s = Except.ok m) {i j : ℕ}
    (hm : bget m i j = true) : bget (potentialMask dem s) i j = true := by
  rw [connected_flood_eq] at hok
  by_cases h : shape0 dem = 0 ∨ shape1 dem = 0
  · rw [if_pos h] at hok; simp at hok
  · rw [if_neg h] at hok
    injection hok with e
    subst e
    exact propagation_subset_mask (fun a b hab => (and2_true hab).2) i j hm

/-- C1: every cell marked flooded by `connected_flood(grid, level)` is marked
flooded (value 1) by `bathtub_inundation(grid, level)`: the connected mask is
a subset of the bathtub mask. -/
theorem connected_flood_subset_bathtub (dem : List (List ℚ)) (s : PyFloat)
    (m : List (List Bool)) (i j : ℕ)
    (hok : connected_flood dem s = Except.ok m) (hm : bget m i j = true) :
    iget (bathtub_inundation dem s) i j = 1 :=
  pot_true_bathtub dem s i j (connected_ok_pot hok hm)

/-- Helper evaluation: `connected_flood` on the 1×1 grid `[[0]]` at sea level 0
floods the single cell. -/
theorem connected_eval_unit :
    connected_flood [[(0:ℚ)]] (PyFloat.finite 0) = Except.ok [[true]] := by
  have hpot : potentialMask [[(0:ℚ)]] (PyFloat.finite 0) = [[true]] := by
    norm_num [potentialMask, PyFloat.leSL]
  rw [connected_flood_eq, hpot, if_neg (by decide)]
  exact congrArg Except.ok (by decide)

/-- Witness for C1 at the concrete grid `[[0]]` and sea level 0. -/
theorem connected_flood_subset_bathtub_witness :
    iget (bathtub_inundation [[(0:ℚ)]] (PyFloat.finite 0)) 0 0 = 1 :=
  connected_flood_subset_bathtub [[(0:ℚ)]] (PyFloat.finite 0) [[true]] 0 0
    connected_eval_unit rfl

/-! Scenario A (spec §8). -/

/-- The Scenario A grid of the spec: a ring of elevation 5 and 1 enclosing an
elevation-0 depression, with a sea-level bottom row. -/
def demA : List (List ℚ) :=
  [[5, 5, 5, 5, 5],
   [5, 1, 1, 1, 5],
   [5, 1, 0, 1, 5],
   [5, 1, 1, 1, 5],
   [0, 0, 0, 0, 0]]

theorem potA_eval :
    potentialMask demA (PyFloat.finite (1/2)) =
      [[false, false, false, false, false],
       [false, false, false, false, false],
       [false, false, true, false, false],
       [false, false, false, false, false],
       [true, true, true, true, true]] := by
  norm_num [demA, potentialMask, PyFloat.leSL, List.map]

set_option maxRecDepth 40000 in
/-- C2: on the Scenario A grid with sea level 0.5, `connected_flood` marks
exactly the five bottom-row cells true and every other cell false; in
particular the interior elevation-0 cell stays false although it is below sea
level. -/
theorem connected_flood_scenarioA :
    connected_flood demA (PyFloat.finite (1/2)) =
      Except.ok
        [[false, false, false, false, false],
         [false, false, false, false, false],
         [false, false, false, false, false],
         [false, false, false, false, false],
         [true, true, true, true, true]] := by
  have h0 : shape0 demA = 5 := rfl
  have h1 : shape1 demA = 5 := rfl
  rw [connected_flood_eq, potA_eval, h0, h1, if_neg (by decide)]
  exact congrArg Except.ok (by decide)

/-! Monotonicity of the flood fill in the sea level. -/

/-- Pointwise order on boolean masks: every set cell of the first is set in
the second. -/
def MaskLe (a b : List (List Bool)) : Prop :=
  ∀ i j, bget a i j = true → bget b i j = true

theorem maskLe_refl (a : List (List Bool)) : MaskLe a a := fun _ _ h => h

theorem shape0_and2 (a b : List (List Bool)) : shape0 (and2 a b) = shape0 a :=
  congrArg Prod.fst (npShape_and2 a b)

theorem shape1_and2 (a b : List (List Bool)) : shape1 (and2 a b) = shape1 a :=
  congrArg Prod.snd (npShape_and2 a b)

theorem and2_mono {a1 a2 b1 b2 : List (List Bool)}
    (hs0 : shape0 a1 = shape0 a2) (hs1 : shape1 a1 = shape1 a2)
    (ha : MaskLe a1 a2) (hb : MaskLe b1 b2) : MaskLe (and2 a1 b1) (and2 a2 b2) := by
  intro i j h
  unfold and2 at h ⊢
  rw [bget_mkGrid] at h ⊢
  by_cases hc : i < shape0 a1 ∧ j < shape1 a1
  · rw [if_pos hc] at h
    rw [if_pos (by rw [← hs0, ← hs1]; exact hc)]
    simp at h ⊢
    exact ⟨ha _ _ h.1, hb _ _ h.2⟩
  · rw [if_neg hc] at h; simp at h

theorem dilate_mono {m1 m2 v1 v2 : List (List Bool)}
    (hs0 : shape0 m1 = shape0 m2) (hs1 : shape1 m1 = shape1 m2)
    (hm : MaskLe m1 m2) (hv : MaskLe v1 v2) :
    MaskLe (dilateStep m1 v1) (dilateStep m2 v2) := by
  intro i j h
  unfold dilateStep at h ⊢
  rw [bget_mkGrid] at h ⊢
  by_cases hc : i < shape0 m1 ∧ j < shape1 m1
  · rw [if_pos hc] at h
    rw [if_pos (by rw [← hs0, ← hs1]; exact hc)]
    simp only [Bool.and_eq_true, Bool.or_eq_true] at h ⊢
    refine ⟨hm _ _ h.1, ?_⟩
    rcases h.2 with ((((h' | h') | h') | h') | h')
    · exact Or.inl (Or.inl (Or.inl (Or.inl (hv _ _ h'))))
    · exact Or.inl (Or.inl (Or.inl (Or.inr (hv _ _ h'))))
    · exact Or.inl (Or.inl (Or.inr (hv _ _ h')))
    · exact Or.inl (Or.inr (hv _ _ h'))
    · exact Or.inr (hv _ _ h')
  · rw [if_neg hc] at h; simp at h

theorem iterate_mono {m1 m2 : List (List Bool)}
    (hs0 : shape0 m1 = shape0 m2) (hs1 : shape1 m1 = shape1 m2)
    (hm : MaskLe m1 m2) {v1 v2 : List (List Bool)} (hv : MaskLe v1 v2) (k : ℕ) :
    MaskLe ((dilateStep m1)^[k] v1) ((dilateStep m2)^[k] v2) := by
  induction k with
  | zero => simpa using hv
  | succ n ih =>
      rw [Function.iterate_succ_apply', Function.iterate_succ_apply']
      exact dilate_mono hs0 hs1 hm ih

theorem potential_mono {dem : List (List ℚ)} {l1 l2 : ℚ} (h12 : l1 ≤ l2) :
    MaskLe (potentialMask dem (PyFloat.finite l1)) (potentialMask dem (PyFloat.finite l2)) := by
  intro i j h
  rw [bget_potential] at h ⊢
  cases hq : ((dem[i]?).getD [])[j]? with
  | none => simp [hq] at h
  | some q =>
      simp [hq, PyFloat.leSL] at h ⊢
      exact le_trans h h12

/-- C10: `connected_flood` is monotone in the sea level: if `l1 <= l2`, every
cell flooded at level `l1` is flooded at level `l2`. -/
theorem connected_flood_monotone (dem : List (List ℚ)) (l1 l2 : ℚ) (h12 : l1 ≤ l2)
    (m1 m2 : List (List Bool)) (i j : ℕ)
    (h1 : connected_flood dem (PyFloat.finite l1) = Except.ok m1)
    (h2 : connected_flood dem (PyFloat.finite l2) = Except.ok m2)
    (hc : bget m1 i j = true) : bget m2 i j = true := by
  rw [connected_flood_eq] at h1 h2
  by_cases h : shape0 dem = 0 ∨ shape1 dem = 0
  · rw [if_pos h] at h1; simp at h1
  · rw [if_neg h] at h1 h2
    injection h1 with e1
    injection h2 with e2
    subst e1
    subst e2
    unfold binary_propagation at hc ⊢
    rw [shape0_potential, shape1_potential] at hc ⊢
    have hs0 : shape0 (potentialMask dem (PyFloat.finite l1)) =
        shape0 (potentialMask dem (PyFloat.finite l2)) := by
      rw [shape0_potential, shape0_potential]
    have hs1 : shape1 (potentialMask dem (PyFloat.finite l1)) =
        shape1 (potentialMask dem (PyFloat.finite l2)) := by
      rw [shape1_potential, shape1_potential]
    have hpm : MaskLe (potentialMask dem (PyFloat.finite l1))
        (potentialMask dem (PyFloat.finite l2)) := potential_mono h12
    have hseed : MaskLe
        (and2 (and2 (potentialMask dem (PyFloat.finite l1))
          (edgeMask (shape0 dem) (shape1 dem))) (potentialMask dem (PyFloat.finite l1)))
        (and2 (and2 (potentialMask dem (PyFloat.finite l2))
          (edgeMask (shape0 dem) (shape1 dem))) (potentialMask dem (PyFloat.finite l2))) := by
      refine and2_mono ?_ ?_ ?_ hpm
      · rw [shape0_and2, shape0_and2]; exact hs0
      · rw [shape1_and2, shape1_and2]; exact hs1
      · exact and2_mono hs0 hs1 hpm (maskLe_refl _)
    exact iterate_mono hs0 hs1 hpm hseed (shape0 dem * shape1 dem) i j hc

/-- Helper evaluation: `connected_flood` on `[[0]]` at sea level 1 floods the
single cell. -/
theorem connected_eval_unit_one :
    connected_flood [[(0:ℚ)]] (PyFloat.finite 1) = Except.ok [[true]] := by
  have hpot : potentialMask [[(0:ℚ)]] (PyFloat.finite 1) = [[true]] := by
    norm_num [potentialMask, PyFloat.leSL]
  rw [connected_flood_eq, hpot, if_neg (by decide)]
  exact congrArg Except.ok (by decide)

/-- Witness for C10 at the grid `[[0]]` and levels `0 <= 1`. -/
theorem connected_flood_monotone_witness :
    (0:ℚ) ≤ 1 ∧ bget [[true]] 0 0 = true :=
  ⟨by norm_num,
   connected_flood_monotone [[(0:ℚ)]] 0 1 (by norm_num) [[true]] [[true]] 0 0
     connected_eval_unit connected_eval_unit_one rfl⟩

/-! Input validation behaviour of `connected_flood` (claim C4). -/

/-- Helper evaluation: a NaN sea level passes the `isinstance` validation of
the source (NaN is a float) and yields the all-false mask on `[[0]]`. -/
theorem nan_eval : connected_flood [[(0:ℚ)]] PyFloat.nan = Except.ok [[false]] := by
  have hpot : potentialMask [[(0:ℚ)]] PyFloat.nan = [[false]] := by
    simp [potentialMask, PyFloat.leSL]
  rw [connected_flood_eq, hpot, if_neg (by decide)]
  exact congrArg Except.ok (by decide)

/-- C4 (counterexample): with the non-finite sea level NaN, `connected_flood`
does not fail with any error — `isinstance(nan, float)` holds, so validation
passes and an ordinary (all-false) mask is returned, contradicting the claim
that a non-finite sea level fails with a typed input error. -/
theorem connected_flood_nan_counterexample :
    connected_flood [[(0:ℚ)]] PyFloat.nan = Except.ok [[false]]
    ∧ ∀ e : PyErr, connected_flood [[(0:ℚ)]] PyFloat.nan ≠ Except.error e := by
  refine ⟨nan_eval, ?_⟩
  intro e hcontra
  rw [nan_eval] at hcontra
  simp at hcontra

/-- C4 (amended): `connected_flood` raises typed errors for a non-array, a
non-2D array or a non-numeric sea level (structural in this embedding), but a
non-finite sea level passes the `isinstance` check: NaN produces an all-false
mask instead of an error, and an empty 2D grid passes validation and fails
only afterwards with an IndexError inside `is_coastal_edge`, after the
potential mask has already been computed. -/
theorem connected_flood_validation (dem : List (List ℚ)) (s : PyFloat) :
    ((shape0 dem = 0 ∨ shape1 dem = 0) →
      connected_flood dem s = Except.error PyErr.indexError)
    ∧ (¬(shape0 dem = 0 ∨ shape1 dem = 0) →
      ∃ m, connected_flood dem s = Except.ok m)
    ∧ (∀ m i j, connected_flood dem PyFloat.nan = Except.ok m → bget m i j = false) := by
  refine ⟨?_, ?_, ?_⟩
  · intro h; rw [connected_flood_eq, if_pos h]
  · intro h; rw [connected_flood_eq, if_neg h]; exact ⟨_, rfl⟩
  · intro m i j hok
    cases hb : bget m i j
    · rfl
    · exfalso
      have hp := connected_ok_pot hok hb
      rw [bget_potential] at hp
      cases hq : ((dem[i]?).getD [])[j]? with
      | none => simp [hq] at hp
      | some q => simp [hq, PyFloat.leSL] at hp

/-- Witness for C4's amended statement at the empty grid and at `[[0]]`. -/
theorem connected_flood_validation_witness :
    connected_flood ([] : List (List ℚ)) (PyFloat.finite 0) = Except.error PyErr.indexError
    ∧ (∃ m, connected_flood [[(0:ℚ)]] (PyFloat.finite 0) = Except.ok m)
    ∧ bget [[false]] 0 0 = false :=
  ⟨(connected_flood_validation [] (PyFloat.finite 0)).1 (by simp [shape0]),
   (connected_flood_validation [[(0:ℚ)]] (PyFloat.finite 0)).2.1 (by decide),
   (connected_flood_validation [[(0:ℚ)]] PyFloat.nan).2.2 [[false]] 0 0 nan_eval⟩

/-! Shapes of the produced flood masks (claim C6). -/

theorem rowLens_mkGrid (r c : ℕ) (f : ℕ → ℕ → Bool) :
    rowLens (mkGrid r c f) = List.replicate r c := by
  unfold rowLens mkGrid
  rw [List.map_map]
  have hcomp : (List.length ∘ fun i => (List.range c).map (f i)) = fun _ => c := by
    funext i; simp
  rw [hcomp]
  simp

theorem npShape_dilate (mask v : List (List Bool)) :
    npShape (dilateStep mask v) = npShape mask := by
  unfold dilateStep npShape
  rw [shape0_mkGrid, shape1_mkGrid]
  cases mask with
  | nil => simp [shape0, shape1]
  | cons row t => simp [shape0, shape1]

theorem npShape_iterate (mask v : List (List Bool)) (hv : npShape v = npShape mask)
    (k : ℕ) : npShape ((dilateStep mask)^[k] v) = npShape mask := by
  induction k with
  | zero => simpa using hv
  | succ n ih => rw [Function.iterate_succ_apply']; exact npShape_dilate mask _

theorem rowLens_iterate (mask v : List (List Bool))
    (hv : rowLens v = List.replicate (shape0 mask) (shape1 mask)) (k : ℕ) :
    rowLens ((dilateStep mask)^[k] v) = List.replicate (shape0 mask) (shape1 mask) := by
  induction k with
  | zero => simpa using hv
  | succ n ih => rw [Function.iterate_succ_apply']; exact rowLens_mkGrid _ _ _

theorem rowLens_and2 (a b : List (List Bool)) :
    rowLens (and2 a b) = List.replicate (shape0 a) (shape1 a) :=
  rowLens_mkGrid _ _ _

theorem npShape_potential (dem : List (List ℚ)) (s : PyFloat) :
    npShape (potentialMask dem s) = npShape dem := by
  unfold npShape
  rw [shape0_potential, shape1_potential]

theorem rowLens_of_wf {dem : List (List ℚ)} (h : Wf dem) :
    rowLens dem = List.replicate (shape0 dem) (shape1 dem) := by
  unfold rowLens
  refine List.eq_replicate_iff.mpr ⟨by simp [shape0], ?_⟩
  intro b hb
  obtain ⟨row, hrow, rfl⟩ := List.mem_map.mp hb
  exact h row hrow

theorem rowLens_bathtub (dem : List (List ℚ)) (s : PyFloat) :
    rowLens (bathtub_inundation dem s) = rowLens dem := by
  unfold rowLens bathtub_inundation
  rw [List.map_map]
  congr 1
  funext row
  simp

/-- C6 (counterexample): on the grid `[[0]]` at sea level 0 the bathtub mask
is the integer array `[[1]]` — `np.where(dem <= level, 1, 0)` produces the
integers 0 and 1, so the produced FloodMask is not a boolean array. -/
theorem bathtub_not_boolean_counterexample :
    bathtub_inundation [[(0:ℚ)]] (PyFloat.finite 0) = [[(1:ℤ)]] := by
  norm_num [bathtub_inundation, PyFloat.leSL]

/-- C6 (amended): both engines produce 2D arrays with exactly the source
grid's shape — row count and all row lengths preserved — and
`connected_flood`'s mask is boolean (by type), but `bathtub_inundation`'s
cells are the integers 0 and 1, not booleans. -/
theorem flood_mask_shape (dem : List (List ℚ)) (s : PyFloat) :
    rowLens (bathtub_inundation dem s) = rowLens dem
    ∧ (∀ i j, iget (bathtub_inundation dem s) i j = 0
        ∨ iget (bathtub_inundation dem s) i j = 1)
    ∧ (∀ m, connected_flood dem s = Except.ok m →
        npShape m = npShape dem ∧ (Wf dem → rowLens m = rowLens dem)) := by
  refine ⟨rowLens_bathtub dem s, ?_, ?_⟩
  · intro i j
    rw [iget_bathtub]
    cases hq : ((dem[i]?).getD [])[j]? with
    | none => left; simp [hq]
    | some q =>
        cases hl : PyFloat.leSL q s
        · left; simp [hq, hl]
        · right; simp [hq, hl]
  · intro m hok
    rw [connected_flood_eq] at hok
    by_cases h : shape0 dem = 0 ∨ shape1 dem = 0
    · rw [if_pos h] at hok; simp at hok
    · rw [if_neg h] at hok
      injection hok with e
      subst e
      have hv : npShape
          (and2 (and2 (potentialMask dem s) (edgeMask (shape0 dem) (shape1 dem)))
            (potentialMask dem s)) = npShape (potentialMask dem s) := by
        rw [npShape_and2, npShape_and2]
      have hv2 : rowLens
          (and2 (and2 (potentialMask dem s) (edgeMask (shape0 dem) (shape1 dem)))
            (potentialMask dem s)) =
          List.replicate (shape0 (potentialMask dem s)) (shape1 (potentialMask dem s)) := by
        rw [rowLens_and2, shape0_and2, shape1_and2]
      constructor
      · unfold binary_propagation
        rw [npShape_iterate _ _ hv _, npShape_potential]
      · intro hwf
        unfold binary_propagation
        rw [rowLens_iterate _ _ hv2 _, shape0_potential, shape1_potential]
        exact (rowLens_of_wf hwf).symm

/-- Witness for C6's amended statement on the grid `[[0]]` at sea level 0. -/
theorem flood_mask_shape_witness :
    rowLens (bathtub_inundation [[(0:ℚ)]] (PyFloat.finite 0)) = rowLens [[(0:ℚ)]]
    ∧ (iget (bathtub_inundation [[(0:ℚ)]] (PyFloat.finite 0)) 0 0 = 0
        ∨ iget (bathtub_inundation [[(0:ℚ)]] (PyFloat.finite 0)) 0 0 = 1)
    ∧ npShape [[true]] = npShape [[(0:ℚ)]]
    ∧ rowLens [[true]] = rowLens [[(0:ℚ)]] := by
  have h := flood_mask_shape [[(0:ℚ)]] (PyFloat.finite 0)
  have h3 := h.2.2 [[true]] connected_eval_unit
  refine ⟨h.1, h.2.1 0 0, h3.1, h3.2 ?_⟩
  intro row hrow
  rw [List.mem_singleton] at hrow
  subst hrow
  rfl

/-! The sea-wall applicator (src/cora/core/adaptation.py). -/

/-- A rasterio affine transform `(a, b, c, d, e, f)` mapping pixel space to
world space: `x = a*col + b*row + c`, `y = d*col + e*row + f`. -/
structure Affine where
  a : ℚ
  b : ℚ
  c : ℚ
  d : ℚ
  e : ℚ
  f : ℚ
deriving DecidableEq

/-- Determinant of the linear part of an affine transform.  The spec's
ElevationGrid invariant (§3) requires it to be nonzero. -/
def detA (T : Affine) : ℚ := T.a * T.e - T.b * T.d

/-- The inverse affine transform `~T` applied to a world point, giving
fractional `(col, row)` pixel coordinates.  Rational division is total in the
embedding; a singular transform is excluded by the data-model invariant. -/
def invColRow (T : Affine) (x y : ℚ) : ℚ × ℚ :=
  ((T.e * (x - T.c) - T.b * (y - T.f)) / detA T,
   (T.a * (y - T.f) - T.d * (x - T.c)) / detA T)

/-- Projection of both endpoints of the segment `p`–`q` onto the segment's
normal (the projections coincide, so one value represents the segment). -/
def perpD (p q : ℚ × ℚ) : ℚ := (p.2 - q.2) * p.1 + (q.1 - p.1) * p.2

/-- Projection of the point `(x, y)` onto the normal of the segment `p`–`q`. -/
def perpP (p q : ℚ × ℚ) (x y : ℚ) : ℚ := (p.2 - q.2) * x + (q.1 - p.1) * y

/-- Modelled from the spec: whether the closed segment from `p` to `q` (pixel
coordinates) meets the closed unit square of the cell in row `i`, column `j` —
§4.3's "exact set of cells the line geometrically passes through".  Decided by
the separating-axis criterion for a segment against an axis-aligned box: the
two coordinate axes and the segment normal are the only candidate separating
axes of these two convex sets. -/
def segTouch (p q : ℚ × ℚ) (i j : ℕ) : Bool :=
  decide ((j : ℚ) ≤ max p.1 q.1) && decide (min p.1 q.1 ≤ (j : ℚ) + 1) &&
  decide ((i : ℚ) ≤ max p.2 q.2) && decide (min p.2 q.2 ≤ (i : ℚ) + 1) &&
  decide (min (min (perpP p q (j : ℚ) (i : ℚ)) (perpP p q ((j : ℚ) + 1) (i : ℚ)))
        (min (perpP p q (j : ℚ) ((i : ℚ) + 1)) (perpP p q ((j : ℚ) + 1) ((i : ℚ) + 1)))
      ≤ perpD p q
    ∧ perpD p q ≤
      max (max (perpP p q (j : ℚ) (i : ℚ)) (perpP p q ((j : ℚ) + 1) (i : ℚ)))
        (max (perpP p q (j : ℚ) ((i : ℚ) + 1)) (perpP p q ((j : ℚ) + 1) ((i : ℚ) + 1))))

/-- The consecutive-point segments of a polyline. -/
def segs : List (ℚ × ℚ) → List ((ℚ × ℚ) × (ℚ × ℚ))
  | p :: q :: rest => (p, q) :: segs (q :: rest)
  | _ => []

/-- Modelled from the spec: membership of cell `(i, j)` in the cell set
produced by `rasterize_line` (src/cora/core/adaptation.py), whose geometric
work is delegated to the external `rasterio.features.rasterize`.  Per §4.3
this is the set of cells the wall polyline geometrically passes through; the
polyline is mapped to pixel space through the grid's inverse affine
transform.  The source returns these cells as an `np.argwhere` coordinate
array; the embedding exposes the membership predicate. -/
def rasterHit (pts : List (ℚ × ℚ)) (T : Affine) (i j : ℕ) : Bool :=
  (segs (pts.map (fun w => invColRow T w.1 w.2))).any (fun s => segTouch s.1 s.2 i j)

/-- Per-row cell update of `apply_sea_wall`, carrying the column index. -/
def rowUpd (hit : ℕ → Bool) (h : ℚ) : ℕ → List ℚ → List ℚ
  | _, [] => []
  | j, q :: rest => (if hit j then max q h else q) :: rowUpd hit h (j + 1) rest

/-- Row-wise cell update of `apply_sea_wall`, carrying the row index. -/
def gridUpd (hit : ℕ → ℕ → Bool) (h : ℚ) : ℕ → List (List ℚ) → List (List ℚ)
  | _, [] => []
  | i, row :: rest => rowUpd (hit i) h 0 row :: gridUpd hit h (i + 1) rest

/-- Embeds `apply_sea_wall` (src/cora/core/adaptation.py): the grid is copied
(`dem.copy()`; purity is inherent in the embedding), the wall polyline is
rasterized over the grid's shape, and every rasterized cell is raised to
`np.maximum(current elevation, wall_height)`; all other cells keep their
value.  `wall_height` is a real number per the SeaWall data model (§3) and
the finiteness policy (§7). -/
def apply_sea_wall (dem : List (List ℚ)) (wall_line : List (ℚ × ℚ))
    (wall_height : ℚ) (T : Affine) : List (List ℚ) :=
  gridUpd (fun i j => rasterHit wall_line T i j) wall_height 0 dem

theorem rowUpd_getElem (hit : ℕ → Bool) (h : ℚ) :
    ∀ (row : List ℚ) (j0 j : ℕ),
      (rowUpd hit h j0 row)[j]? =
        (row[j]?).map (fun q => if hit (j0 + j) then max q h else q) := by
  intro row
  induction row with
  | nil => intro j0 j; simp [rowUpd]
  | cons q rest ih =>
      intro j0 j
      cases j with
      | zero => simp [rowUpd]
      | succ n =>
          simp only [rowUpd, List.getElem?_cons_succ]
          rw [ih (j0 + 1) n]
          have e : j0 + 1 + n = j0 + (n + 1) := by omega
          rw [e]

theorem gridUpd_getElem (hit : ℕ → ℕ → Bool) (h : ℚ) :
    ∀ (dem : List (List ℚ)) (i0 i : ℕ),
      (gridUpd hit h i0 dem)[i]? =
        (dem[i]?).map (fun row => rowUpd (hit (i0 + i)) h 0 row) := by
  intro dem
  induction dem with
  | nil => intro i0 i; simp [gridUpd]
  | cons row rest ih =>
      intro i0 i
      cases i with
      | zero => simp [gridUpd]
      | succ n =>
          simp only [gridUpd, List.getElem?_cons_succ]
          rw [ih (i0 + 1) n]
          have e : i0 + 1 + n = i0 + (n + 1) := by omega
          rw [e]

theorem qget_gridUpd (dem : List (List ℚ)) (hit : ℕ → ℕ → Bool) (h : ℚ) (i j : ℕ) :
    qget (gridUpd hit h 0 dem) i j =
      (((dem[i]?).getD [])[j]?.map (fun q => if hit i j then max q h else q)).getD 0 := by
  unfold qget
  rw [gridUpd_getElem]
  cases hrow : dem[i]? with
  | none => simp
  | some row => simp [rowUpd_getElem]

/-- C3: `apply_sea_wall` never decreases any cell's elevation, and every cell
not rasterized by the wall line keeps exactly its original elevation (the
input grid itself is untouched: the source copies it, and the embedding is
pure). -/
theorem apply_sea_wall_frame (dem : List (List ℚ)) (pts : List (ℚ × ℚ))
    (wall_height : ℚ) (T : Affine) :
    (∀ i j, qget dem i j ≤ qget (apply_sea_wall dem pts wall_height T) i j)
    ∧ (∀ i j, rasterHit pts T i j = false →
        qget (apply_sea_wall dem pts wall_height T) i j = qget dem i j) := by
  constructor
  · intro i j
    unfold apply_sea_wall
    rw [qget_gridUpd]
    unfold qget
    cases hq : ((dem[i]?).getD [])[j]? with
    | none => simp
    | some q =>
        cases hhit : rasterHit pts T i j <;> simp [hhit, le_max_left]
  · intro i j hmiss
    unfold apply_sea_wall
    rw [qget_gridUpd]
    unfold qget
    cases hq : ((dem[i]?).getD [])[j]? with
    | none => simp
    | some q => simp [hmiss]

/-- Witness for C3 on the grid `[[2]]` with an empty (cell-free) wall. -/
theorem apply_sea_wall_frame_witness :
    qget [[(2:ℚ)]] 0 0 ≤ qget (apply_sea_wall [[(2:ℚ)]] [] 5 ⟨1, 0, 0, 0, 1, 0⟩) 0 0
    ∧ qget (apply_sea_wall [[(2:ℚ)]] [] 5 ⟨1, 0, 0, 0, 1, 0⟩) 0 0 = qget [[(2:ℚ)]] 0 0 :=
  ⟨(apply_sea_wall_frame [[(2:ℚ)]] [] 5 ⟨1, 0, 0, 0, 1, 0⟩).1 0 0,
   (apply_sea_wall_frame [[(2:ℚ)]] [] 5 ⟨1, 0, 0, 0, 1, 0⟩).2 0 0 rfl⟩

theorem segs_of_short {l : List (ℚ × ℚ)} (h : l.length < 2) : segs l = [] := by
  cases l with
  | nil => rfl
  | cons p rest =>
      cases rest with
      | nil => rfl
      | cons q t => simp at h; omega

theorem rasterHit_short {pts : List (ℚ × ℚ)} (h : pts.length < 2) (T : Affine)
    (i j : ℕ) : rasterHit pts T i j = false := by
  unfold rasterHit
  rw [segs_of_short (by simpa using h)]
  rfl

theorem rowUpd_id (hit : ℕ → Bool) (h : ℚ) :
    ∀ (row : List ℚ) (j0 : ℕ), (∀ j, j < row.length → hit (j0 + j) = false) →
      rowUpd hit h j0 row = row := by
  intro row
  induction row with
  | nil => intro j0 _; rfl
  | cons q rest ih =>
      intro j0 hall
      have h0 : hit j0 = false := by simpa using hall 0 (by simp)
      have hrest : rowUpd hit h (j0 + 1) rest = rest := by
        apply ih
        intro j hj
        have h2 := hall (j + 1) (by simp; omega)
        have e : j0 + (j + 1) = j0 + 1 + j := by omega
        rwa [e] at h2
      simp [rowUpd, h0, hrest]

theorem gridUpd_id (hit : ℕ → ℕ → Bool) (h : ℚ) :
    ∀ (dem : List (List ℚ)) (i0 : ℕ),
      (∀ i row, dem[i]? = some row → ∀ j, j < row.length → hit (i0 + i) j = false) →
      gridUpd hit h i0 dem = dem := by
  intro dem
  induction dem with
  | nil => intro i0 _; rfl
  | cons row rest ih =>
      intro i0 hall
      have hrow : rowUpd (hit i0) h 0 row = row := by
        apply rowUpd_id
        intro j hj
        have h2 := hall 0 row (by simp) j hj
        simpa using h2
      have hrest : gridUpd hit h (i0 + 1) rest = rest := by
        apply ih
        intro i r hr j hj
        have h2 := hall (i + 1) r (by simpa using hr) j hj
        have e : i0 + (i + 1) = i0 + 1 + i := by omega
        rwa [e] at h2
      simp [gridUpd, hrow, hrest]

/-- C9: a wall with fewer than 2 points, or one that rasterizes to no cell of
the grid, leaves the grid unchanged — `apply_sea_wall` returns an unmodified
copy and raises no error (the embedding is total). -/
theorem apply_sea_wall_noop (dem : List (List ℚ)) (pts : List (ℚ × ℚ))
    (wall_height : ℚ) (T : Affine) :
    (pts.length < 2 → apply_sea_wall dem pts wall_height T = dem)
    ∧ (Wf dem →
      (∀ i j, i < shape0 dem → j < shape1 dem → rasterHit pts T i j = false) →
      apply_sea_wall dem pts wall_height T = dem) := by
  constructor
  · intro hlen
    unfold apply_sea_wall
    apply gridUpd_id
    intro i row _ j _
    exact rasterHit_short hlen T (0 + i) j
  · intro hwf hbound
    unfold apply_sea_wall
    apply gridUpd_id
    intro i row hr j hj
    have hi : i < dem.length := by
      by_contra hcon
      rw [List.getElem?_eq_none (Nat.le_of_not_lt hcon)] at hr
      simp at hr
    have hrowlen : row.length = shape1 dem :=
      hwf row (List.mem_iff_getElem?.mpr ⟨i, hr⟩)
    exact hbound (0 + i) j (by simpa [shape0] using hi) (by rw [← hrowlen]; exact hj)

/-- Witness for C9 on the grid `[[3]]`: a one-point wall, and an empty wall
that rasterizes to no cell. -/
theorem apply_sea_wall_noop_witness :
    apply_sea_wall [[(3:ℚ)]] [((0:ℚ), (0:ℚ))] 5 ⟨1, 0, 0, 0, 1, 0⟩ = [[(3:ℚ)]]
    ∧ apply_sea_wall [[(3:ℚ)]] [] 5 ⟨1, 0, 0, 0, 1, 0⟩ = [[(3:ℚ)]] :=
  ⟨(apply_sea_wall_noop [[(3:ℚ)]] [((0:ℚ), (0:ℚ))] 5 ⟨1, 0, 0, 0, 1, 0⟩).1 (by simp),
   (apply_sea_wall_noop [[(3:ℚ)]] [] 5 ⟨1, 0, 0, 0, 1, 0⟩).2
     (by intro row hrow; rw [List.mem_singleton] at hrow; subst hrow; rfl)
     (fun i j _ _ => rfl)⟩

/-! Direction symmetry of the rasterization (claim C7). -/

theorem perpP_swap (p q : ℚ × ℚ) (x y : ℚ) : perpP q p x y = -perpP p q x y := by
  unfold perpP; ring

theorem perpD_swap (p q : ℚ × ℚ) : perpD q p = -perpD p q := by
  unfold perpD; ring

theorem satInterval_comm (d pA pB pC pD : ℚ) :
    decide (min (min (-pA) (-pB)) (min (-pC) (-pD)) ≤ -d
      ∧ -d ≤ max (max (-pA) (-pB)) (max (-pC) (-pD))) =
    decide (min (min pA pB) (min pC pD) ≤ d
      ∧ d ≤ max (max pA pB) (max pC pD)) := by
  rw [decide_eq_decide, min_neg_neg, min_neg_neg, min_neg_neg,
    max_neg_neg, max_neg_neg, max_neg_neg, neg_le_neg_iff, neg_le_neg_iff]
  exact and_comm

theorem segTouch_comm (p q : ℚ × ℚ) (i j : ℕ) : segTouch q p i j = segTouch p q i j := by
  unfold segTouch
  rw [perpD_swap p q,
    perpP_swap p q (j : ℚ) (i : ℚ),
    perpP_swap p q ((j : ℚ) + 1) (i : ℚ),
    perpP_swap p q (j : ℚ) ((i : ℚ) + 1),
    perpP_swap p q ((j : ℚ) + 1) ((i : ℚ) + 1),
    max_comm q.1 p.1, min_comm q.1 p.1, max_comm q.2 p.2, min_comm q.2 p.2,
    satInterval_comm]

theorem segs_index :
    ∀ (l : List (ℚ × ℚ)) (s : (ℚ × ℚ) × (ℚ × ℚ)),
      s ∈ segs l ↔ ∃ k, l[k]? = some s.1 ∧ l[k + 1]? = some s.2 := by
  intro l
  induction l with
  | nil =>
      intro s
      constructor
      · intro h; simp [segs] at h
      · rintro ⟨k, h1, _⟩; simp at h1
  | cons p rest ih =>
      intro s
      cases rest with
      | nil =>
          constructor
          · intro h; simp [segs] at h
          · rintro ⟨k, h1, h2⟩
            rw [List.getElem?_eq_none
              (by simp : ([p] : List (ℚ × ℚ)).length ≤ k + 1)] at h2
            simp at h2
      | cons q rest2 =>
          constructor
          · intro h
            change s ∈ (p, q) :: segs (q :: rest2) at h
            rcases List.mem_cons.mp h with heq | h'
            · exact ⟨0, by simp [heq], by simp [heq]⟩
            · obtain ⟨k, h1, h2⟩ := (ih s).mp h'
              exact ⟨k + 1, by simpa using h1, by simpa using h2⟩
          · rintro ⟨k, h1, h2⟩
            change s ∈ (p, q) :: segs (q :: rest2)
            cases k with
            | zero =>
                rcases s with ⟨s1, s2⟩
                simp at h1 h2
                subst h1
                subst h2
                exact List.mem_cons_self _ _
            | succ n =>
                exact List.mem_cons_of_mem _ ((ih s).mpr
                  ⟨n, by simpa using h1, by simpa using h2⟩)

theorem segs_reverse_aux (l : List (ℚ × ℚ)) (s : (ℚ × ℚ) × (ℚ × ℚ))
    (hs : s ∈ segs l) : (s.2, s.1) ∈ segs l.reverse := by
  rw [segs_index] at hs ⊢
  obtain ⟨k, h1, h2⟩ := hs
  have hk1 : k + 1 < l.length := by
    by_contra hcon
    rw [List.getElem?_eq_none (Nat.le_of_not_lt hcon)] at h2
    simp at h2
  refine ⟨l.length - 2 - k, ?_, ?_⟩
  · rw [List.getElem?_reverse (by omega : l.length - 2 - k < l.length)]
    have e : l.length - 1 - (l.length - 2 - k) = k + 1 := by omega
    rw [e]
    exact h2
  · rw [List.getElem?_reverse (by omega : l.length - 2 - k + 1 < l.length)]
    have e : l.length - 1 - (l.length - 2 - k + 1) = k := by omega
    rw [e]
    exact h1

theorem segs_any_reverse (L : List (ℚ × ℚ)) (i j : ℕ) :
    (segs L.reverse).any (fun s => segTouch s.1 s.2 i j) =
    (segs L).any (fun s => segTouch s.1 s.2 i j) := by
  rw [Bool.eq_iff_iff]
  simp only [List.any_eq_true]
  constructor
  · rintro ⟨s, hs, ht⟩
    have hmem := segs_reverse_aux L.reverse s hs
    rw [List.reverse_reverse] at hmem
    refine ⟨(s.2, s.1), hmem, ?_⟩
    show segTouch s.2 s.1 i j = true
    rw [segTouch_comm]
    exact ht
  · rintro ⟨s, hs, ht⟩
    refine ⟨(s.2, s.1), segs_reverse_aux L s hs, ?_⟩
    show segTouch s.2 s.1 i j = true
    rw [segTouch_comm]
    exact ht

theorem rasterHit_reverse (pts : List (ℚ × ℚ)) (T : Affine) (i j : ℕ) :
    rasterHit pts.reverse T i j = rasterHit pts T i j := by
  unfold rasterHit
  rw [List.map_reverse]
  exact segs_any_reverse (pts.map (fun w => invColRow T w.1 w.2)) i j

/-- C7: line rasterization is direction-symmetric — reversing the polyline's
point order yields the identical cell set, and therefore `apply_sea_wall` on
the reversed wall produces the identical output grid. -/
theorem rasterize_direction_symmetric (pts : List (ℚ × ℚ)) (T : Affine)
    (dem : List (List ℚ)) (wall_height : ℚ) :
    (∀ i j, rasterHit pts.reverse T i j = rasterHit pts T i j)
    ∧ apply_sea_wall dem pts.reverse wall_height T =
      apply_sea_wall dem pts wall_height T := by
  refine ⟨fun i j => rasterHit_reverse pts T i j, ?_⟩
  unfold apply_sea_wall
  have hfun : (fun i j => rasterHit pts.reverse T i j) =
      fun i j => rasterHit pts T i j := by
    funext i j
    exact rasterHit_reverse pts T i j
  rw [hfun]

/-! The point-containment test of the overlay analyzer
(src/cora/analysis/impact_assessment.py). -/

/-- Python 3's `round` (ties to even) as performed by `int(round(v))` in the
source: round half to even, giving an integer index. -/
def pyRound (q : ℚ) : ℤ :=
  let fl := ⌊q⌋
  let r := q - fl
  if r < 1/2 then fl
  else if 1/2 < r then fl + 1
  else if fl % 2 = 0 then fl else fl + 1

/-- Embeds the per-building containment test inlined in
`count_flooded_buildings` (src/cora/analysis/impact_assessment.py), under the
spec's name `contains_point` (§4.5): `col, row = ~dem_transform * (x, y)`;
`row, col = int(round(row)), int(round(col))`; a bounds check; then the mask
lookup.  Out-of-bounds indices yield `false` and never an error. -/
def contains_point (x y : ℚ) (mask : List (List Bool)) (T : Affine) : Bool :=
  let cr := invColRow T x y
  let row := pyRound cr.2
  let col := pyRound cr.1
  if 0 ≤ row ∧ row < (shape0 mask : ℤ) ∧ 0 ≤ col ∧ col < (shape1 mask : ℤ) then
    bget mask row.toNat col.toNat
  else false

/-- C8: for every grid mask, invertible transform and point, out-of-bounds
inverse-transformed indices make the containment test return `false` (the
function is total, so no error is possible); in-bounds indices return the
mask value at that cell. -/
theorem contains_point_bounds (x y : ℚ) (mask : List (List Bool)) (T : Affine)
    (_hdet : detA T ≠ 0) :
    (¬(0 ≤ pyRound (invColRow T x y).2
        ∧ pyRound (invColRow T x y).2 < (shape0 mask : ℤ)
        ∧ 0 ≤ pyRound (invColRow T x y).1
        ∧ pyRound (invColRow T x y).1 < (shape1 mask : ℤ)) →
      contains_point x y mask T = false)
    ∧ ((0 ≤ pyRound (invColRow T x y).2
        ∧ pyRound (invColRow T x y).2 < (shape0 mask : ℤ)
        ∧ 0 ≤ pyRound (invColRow T x y).1
        ∧ pyRound (invColRow T x y).1 < (shape1 mask : ℤ)) →
      contains_point x y mask T =
        bget mask (pyRound (invColRow T x y).2).toNat
          (pyRound (invColRow T x y).1).toNat) := by
  constructor
  · intro h
    simp only [contains_point]
    rw [if_neg h]
  · intro h
    simp only [contains_point]
    rw [if_pos h]

/-- Witness for C8 with the identity transform on the 1×1 mask `[[true]]`:
the point `(5, 5)` maps out of bounds and tests false; the point
`(1/2, 1/2)` rounds (banker's rounding) to cell `(0, 0)` and returns the mask
value. -/
theorem contains_point_bounds_witness :
    detA ⟨1, 0, 0, 0, 1, 0⟩ ≠ 0
    ∧ contains_point 5 5 [[true]] ⟨1, 0, 0, 0, 1, 0⟩ = false
    ∧ contains_point (1/2) (1/2) [[true]] ⟨1, 0, 0, 0, 1, 0⟩ =
        bget [[true]]
          (pyRound (invColRow ⟨1, 0, 0, 0, 1, 0⟩ (1/2) (1/2)).2).toNat
          (pyRound (invColRow ⟨1, 0, 0, 0, 1, 0⟩ (1/2) (1/2)).1).toNat := by
  refine ⟨by norm_num [detA], ?_, ?_⟩
  · refine (contains_point_bounds 5 5 [[true]] ⟨1, 0, 0, 0, 1, 0⟩ (by norm_num [detA])).1 ?_
    norm_num [invColRow, detA, pyRound, shape0, shape1]
  · refine (contains_point_bounds (1/2) (1/2) [[true]] ⟨1, 0, 0, 0, 1, 0⟩
      (by norm_num [detA])).2 ?_
    norm_num [invColRow, detA, pyRound, shape0, shape1]

/-! The feature-overlay function (src/cora/analysis/impact_assessment.py). -/

/-- A vector feature: a geometry (modelled as a finite list of rational
points) plus named attributes. -/
structure Feature where
  geom : List (ℚ × ℚ)
  attrs : List (String × String)
deriving DecidableEq

/-- A GeoDataFrame: named columns, an optional CRS (`none` models a frame
without CRS), and its feature rows. -/
structure GeoDataFrame where
  columns : List String
  crs : Option String
  feats : List Feature
deriving DecidableEq

/-- Pandas `gdf.empty`: true iff the frame has no rows. -/
def gdfEmpty (g : GeoDataFrame) : Bool := g.feats.isEmpty

/-- Modelled from the spec: `to_crs` reprojects a collection into a target
CRS (§4.5).  The coordinate transformation is performed by an external
library outside the repository, so the embedding retags the declared CRS and
carries the geometries over. -/
def to_crs (g : GeoDataFrame) (crs2 : Option String) : GeoDataFrame :=
  { g with crs := crs2 }

/-- Modelled from the spec: `gpd.overlay(a, b, how='intersection')` — for
every pair of features with non-empty geometric intersection, a result
feature carrying the intersection geometry and the union of both features'
attributes, collisions favouring `a` (§4.5).  Geometries are modelled as
finite point sets, intersection as their common points. -/
def overlayIntersection (a b : GeoDataFrame) : GeoDataFrame :=
  { columns := a.columns,
    crs := a.crs,
    feats := (a.feats.map (fun fa =>
      b.feats.filterMap (fun fb =>
        let g := fa.geom.filter (fun pt => decide (pt ∈ fb.geom))
        if g.isEmpty then none
        else some { geom := g,
                    attrs := fa.attrs ++ fb.attrs.filter
                      (fun kv => !(fa.attrs.any (fun kv2 => kv2.1 == kv.1))) }))).flatten }

/-- Embeds `find_intersecting_features`
(src/cora/analysis/impact_assessment.py).  Optional inputs model Python's
`None`.  The source's guard
`infra_gdf is None or infra_gdf.empty or flood_polygons_gdf is None or
flood_polygons_gdf.empty` treats `None` like empty, but the guarded branch
builds its empty result from `infra_gdf.columns`, which raises
AttributeError when `infra_gdf` is `None`.  On the main path the flood frame
is reprojected when the CRS differ (geopandas raises ValueError when either
CRS is missing), indices are reset (a no-op here), and the overlay
intersection is returned. -/
def find_intersecting_features (infra_gdf flood_polygons_gdf : Option GeoDataFrame) :
    Except PyErr GeoDataFrame :=
  match infra_gdf, flood_polygons_gdf with
  | none, _ => .error .attributeError
  | some a, none => .ok { columns := a.columns, crs := none, feats := [] }
  | some a, some b =>
      if gdfEmpty a || gdfEmpty b then
        .ok { columns := a.columns, crs := none, feats := [] }
      else if a.crs = b.crs then
        .ok (overlayIntersection a b)
      else if a.crs = none ∨ b.crs = none then
        .error .valueError
      else
        .ok (overlayIntersection a (to_crs b a.crs))

/-- C5 (code_bug): `intersect(None, empty)` raises AttributeError — the guard
classifies a `None` first argument as "empty", then evaluates
`infra_gdf.columns` on `None`.  The claim (and §7: legitimately-empty inputs
never raise) requires the empty collection instead. -/
theorem find_intersecting_none_raises :
    find_intersecting_features none
        (some { columns := ["geometry"], crs := none, feats := [] }) =
      Except.error PyErr.attributeError := rfl

end Cora
